import Mathlib

set_option maxRecDepth 100000

/-!
Verification development for the core of `eml_parser` (file `eml_parser/eml_parser.py`).

The Python source is shallowly embedded: the compiled regular expressions are
represented as abstract syntax trees interpreted by a small backtracking
matcher with Python `re` semantics (ordered alternation, greedy quantifiers,
leftmost match, non-overlapping `findall`), strings are `String`/`List Char`,
dictionaries with optional keys become `Option` fields, and a Python exception
escaping a function is `Except.error`.

External collaborators (the Python standard library and the
`eml_parser.decode` helper module, which are not part of the analysed source)
are modelled by their contracts as used by the source; each such model carries
a comment saying so.
-/

namespace EmlSpec

/-- Model of a `datetime.datetime` value as produced by the date collaborators:
a payload string plus an optional UTC offset standing for `tzinfo`
(`tz = none` models `tzname() is None`). -/
structure DT where
  base : String
  tz : Option Int
deriving DecidableEq, Repr

/-- Contract of the collaborator `email.utils.parsedate_to_datetime` as the
source relies on it (compare the `date_ is None` check in
`robust_string2date`): a parsed datetime, or `none` when the string is not an
RFC 2822 date. -/
abbrev PD := String → Option DT

/-- Model of the collaborator constant
`dateutil.parser.parse('1970-01-01 00:00:00 +0000')`: the epoch sentinel,
carrying UTC. -/
def dateutil_epoch : DT := ⟨"1970-01-01 00:00:00 +0000", some 0⟩

/-- A date collaborator that can parse nothing; used to instantiate theorems
at concrete inputs. -/
def pdNone : PD := fun _ => none

/-- A Python dictionary value that is either still a raw string or has been
replaced by a list of strings (the `parserouting` output fields change type
in place). -/
inductive FieldVal where
  | s (v : String)
  | l (v : List String)
deriving DecidableEq, Repr

/-- One parsed relay step, the dict built by `parserouting`: absent dict keys
are `none`. -/
structure Hop where
  src : String
  warning : Option (List String) := none
  dateF : Option DT := none
  fromF : Option FieldVal := none
  byF : Option FieldVal := none
  withF : Option FieldVal := none
  forF : Option FieldVal := none
deriving DecidableEq, Repr

/-! ### Character classes (by code point, mirroring the source's regex classes) -/

def isDigitN (n : Nat) : Bool := 48 ≤ n && n ≤ 57

def isUpperN (n : Nat) : Bool := 65 ≤ n && n ≤ 90

def isLowerN (n : Nat) : Bool := 97 ≤ n && n ≤ 122

def isAlphaN (n : Nat) : Bool := isUpperN n || isLowerN n

def isAlnumN (n : Nat) : Bool := isAlphaN n || isDigitN n

/-- Regex `\w` over ASCII. -/
def isWordN (n : Nat) : Bool := isAlnumN n || n == 95

/-- Regex `\s` over ASCII (also the set stripped by Python `str.strip()`). -/
def isWsN (n : Nat) : Bool := n == 32 || n == 9 || n == 10 || n == 13 || n == 11 || n == 12

/-- Hexadecimal digit, `[0-9A-Fa-f]`. -/
def isHexN (n : Nat) : Bool :=
  isDigitN n || (65 ≤ n && n ≤ 70) || (97 ≤ n && n ≤ 102)

/-- Class `[a-zA-Z0-9-]` used for domain labels and e-mail domains. -/
def alnumHyphN (n : Nat) : Bool := isAlnumN n || n == 45

/-- The local-part class of `email_regex`: letters, digits, and the special
codes listed below (the class range from code 43 to 47 covers the comma as
well, a quirk of the original pattern). -/
def emailLocalN (n : Nat) : Bool :=
  isAlnumN n ||
    (decide (n ∈ [33, 35, 36, 37, 38, 39, 42, 43, 44, 45, 46, 47, 61, 63, 94, 95, 96, 123, 124, 125, 126]))

/-- Left delimiter class of `dom_regex`: `\s` or one of `( / < > | @ ' =`. -/
def domLeftN (n : Nat) : Bool :=
  isWsN n || (decide (n ∈ [40, 47, 60, 62, 124, 64, 39, 61]))

/-- Right delimiter class of `dom_regex` apart from `$`:
`? \s # & / < > ' )`. -/
def domRightN (n : Nat) : Bool :=
  isWsN n || (decide (n ∈ [63, 35, 38, 47, 60, 62, 39, 41]))

/-- Class of `reg_date`: `[ \w\s:,+\-\(\)]`. -/
def dateClsN (n : Nat) : Bool :=
  n == 32 || isWordN n || isWsN n || (decide (n ∈ [58, 44, 43, 45, 40, 41]))

/-- Host class of `url_regex_simple` (`[a-z0-9\-_:]` with `re.I`). -/
def urlHostN (n : Nat) : Bool := isAlnumN n || n == 45 || n == 95 || n == 58

/-- Dotted-tail class of `url_regex_simple` (`[a-z0-9\-_]` with `re.I`). -/
def urlTailN (n : Nat) : Bool := isAlnumN n || n == 45 || n == 95

/-- Path class of `url_regex_simple`
(`[a-z0-9_\-\.~!*'();:@&=+$,\/  ?%#\[\]]` with `re.I`; the space is inside
the class, hence significant despite `re.VERBOSE`). -/
def urlPathN (n : Nat) : Bool :=
  isAlnumN n ||
    (decide (n ∈ [95, 45, 46, 126, 33, 42, 39, 40, 41, 59, 58, 64, 38, 61, 43, 36, 44, 47, 32, 63, 37, 35, 91, 93]))

/-- The character set of the trailing-noise split in `get_uri_ondata`
(`re.split` class: quote, double quote, comma, closing paren, closing brace,
backslash, space). -/
def urlNoiseN (n : Nat) : Bool :=
  decide (n ∈ [39, 32, 34, 44, 41, 125, 92])

/-! ### Python string primitives -/

/-- Python `str.lower` (ASCII fragment, which is all the source exercises). -/
def pyLowerL (l : List Char) : List Char := l.map Char.toLower

def pyLowerS (s : String) : String := String.mk (pyLowerL s.data)

/-- Whether `sub` is a prefix of `s` (decidable, by characters). -/
def isPrefL : List Char → List Char → Bool
  | [], _ => true
  | _ :: _, [] => false
  | a :: as, b :: bs => a == b && isPrefL as bs

/-- Python `str.find` restricted to a suffix list: the first index at which
`sub` occurs in `s`, if any. -/
def strFindL (sub : List Char) : List Char → Option Nat
  | [] => if sub.isEmpty then some 0 else none
  | s@(_ :: rest) =>
    if isPrefL sub s then some 0
    else (strFindL sub rest).map (· + 1)

def strFindS (s sub : String) : Option Nat := strFindL sub.data s.data

/-- Python `str.endswith`. -/
def endsWithS (s suffix : String) : Bool := isPrefL suffix.data.reverse s.data.reverse

/-- Python `sub in s`. -/
def containsS (s sub : String) : Bool := (strFindS s sub).isSome

/-- All positions yielded by the source's `findall(pat, data)` helper
(`str.find` restarted from `i + 1`, so overlapping occurrences count). -/
def allOccL (sub s : List Char) : List Nat :=
  (List.range (s.length + 1)).filter (fun p => isPrefL sub (s.drop p))

/-- Python `str.replace(pat, new)` for a non-empty pattern; the fuel (one
more than the string length at the outer call) bounds the recursion and is
never exhausted, since every step discards at least one character. -/
def replGo (pat new : List Char) : Nat → List Char → List Char
  | 0, s => s
  | _ + 1, [] => []
  | fuel + 1, c :: rest =>
    if isPrefL pat (c :: rest) then new ++ replGo pat new fuel ((c :: rest).drop pat.length)
    else c :: replGo pat new fuel rest

/-- Python `str.replace`; with an empty pattern and empty replacement it is the
identity, as in `npline.replace("", "")`. -/
def pyReplaceAllL (s pat new : List Char) : List Char :=
  if pat = [] then s else replGo pat new (s.length + 1) s

def pyReplaceAllS (s pat new : String) : String :=
  String.mk (pyReplaceAllL s.data pat.data new.data)

/-- Python `str.strip(chars)` for a one-character set given by code. -/
def stripCodeL (code : Nat) (l : List Char) : List Char :=
  ((l.dropWhile (fun c => c.toNat == code)).reverse.dropWhile (fun c => c.toNat == code)).reverse

/-- Python `str.lstrip(chars)` for a one-character set given by code. -/
def lstripCodeL (code : Nat) (l : List Char) : List Char :=
  l.dropWhile (fun c => c.toNat == code)

/-- Python `str.strip()` (whitespace both ends). -/
def pyStripWsL (l : List Char) : List Char :=
  ((l.dropWhile (fun c => isWsN c.toNat)).reverse.dropWhile (fun c => isWsN c.toNat)).reverse

def pyStripWsS (s : String) : String := String.mk (pyStripWsL s.data)

/-- One pass of `re.sub(r'\([^()]*\)', '', line)`: remove every non-nested
parenthesised group, scanning left to right (fuel bounds the recursion and
is never exhausted when it starts above the string length). -/
def subNoParGo : Nat → List Char → List Char
  | 0, l => l
  | _ + 1, [] => []
  | fuel + 1, c :: rest =>
    if c = '(' then
      let run := rest.takeWhile (fun d => d ≠ '(' && d ≠ ')')
      match rest.drop run.length with
      | ')' :: tail => subNoParGo fuel tail
      | _ => c :: subNoParGo fuel rest
    else c :: subNoParGo fuel rest

def subNoPar (l : List Char) : List Char := subNoParGo (l.length + 1) l

/-- Source `noparenthesis`: repeat `subNoPar` until a pass changes nothing.
The fuel bounds the number of passes; every changing pass removes at least one
`()` pair, so `length + 1` passes always reach the fixed point. -/
def noparGo : Nat → List Char → List Char
  | 0, l => l
  | n + 1, l =>
    let l' := subNoPar l
    if l' = l then l else noparGo n l'

def noparenthesisL (l : List Char) : List Char := noparGo (l.length + 1) l

/-- Source `cleanline`: strip `;` then spaces from both ends, repeated until
stable. -/
def cleanGo : Nat → List Char → List Char
  | 0, l => l
  | n + 1, l =>
    let l' := stripCodeL 32 (stripCodeL 59 l)
    if l' = l then l else cleanGo n l'

def cleanlineS (s : String) : String := String.mk (cleanGo (s.data.length + 1) s.data)

/-- The three space-padding substitutions of `parserouting`
(`)` to ` ) `, `(` to ` ( `, `;` to ` ; `). -/
def respaceL (l : List Char) : List Char :=
  l.flatMap (fun c =>
    if c = ')' then [' ', ')', ' ']
    else if c = '(' then [' ', '(', ' ']
    else if c = ';' then [' ', ';', ' ']
    else [c])

/-- Collapse of space runs, `re.sub('  *', ' ', line)`. -/
def collapseGo : Bool → List Char → List Char
  | _, [] => []
  | prevSp, c :: rest =>
    if c = ' ' then
      if prevSp then collapseGo true rest else ' ' :: collapseGo true rest
    else c :: collapseGo false rest

def collapseL (l : List Char) : List Char := collapseGo false l

/-- Python slice `s[a:b]` with clamping of out-of-range and negative indices. -/
def pySliceL (s : List Char) (a b : Int) : List Char :=
  let n : Int := s.length
  let a' := if a < 0 then max 0 (n + a) else min a n
  let b' := if b < 0 then max 0 (n + b) else min b n
  if a' ≤ b' then (s.drop a'.toNat).take (b' - a').toNat else []

def pySliceS (s : String) (a b : Int) : String := String.mk (pySliceL s.data a b)

/-! ### A backtracking regex matcher with Python `re` semantics -/

/-- Regex abstract syntax: character classes are predicates on code points,
alternation is ordered, `star` is greedy, `grp` records a numbered capture,
`eol` is `$` (multiline or not). -/
inductive RE where
  | eps
  | cls (p : Nat → Bool)
  | lit (l : List Char)
  | cat (a b : RE)
  | alt (a b : RE)
  | star (a : RE)
  | grp (n : Nat) (a : RE)
  | eol (ml : Bool)

/-- Captured groups: slot number paired with the captured characters; the most
recent assignment of a slot comes first. -/
abbrev Caps := List (Nat × List Char)

/-- The backtracking matcher, in continuation-passing style, structurally
recursive on its fuel (decremented on every recursive call, so the fuel
bounds the nesting depth of the explored derivation, which for the patterns
in this file is linear in the input length; `star` additionally follows
Python's rule of not repeating an empty match). -/
def mrun : Nat → RE → List Char → (List Char → Caps → Option (List Char × Caps)) → Caps →
    Option (List Char × Caps)
  | _, .eps, s, k, caps => k s caps
  | _, .cls p, s, k, caps =>
    match s with
    | [] => none
    | c :: t => if p c.toNat then k t caps else none
  | _, .lit l, s, k, caps => if isPrefL l s then k (s.drop l.length) caps else none
  | 0, .cat _ _, _, _, _ => none
  | fuel + 1, .cat a b, s, k, caps => mrun fuel a s (fun s1 c1 => mrun fuel b s1 k c1) caps
  | 0, .alt _ _, _, _, _ => none
  | fuel + 1, .alt a b, s, k, caps =>
    match mrun fuel a s k caps with
    | some r => some r
    | none => mrun fuel b s k caps
  | 0, .star _, _, _, _ => none
  | fuel + 1, .star a, s, k, caps =>
    match mrun fuel a s
        (fun s1 c1 => if s1.length < s.length then mrun fuel (.star a) s1 k c1 else k s1 c1) caps with
    | some r => some r
    | none => k s caps
  | 0, .grp _ _, _, _, _ => none
  | fuel + 1, .grp n a, s, k, caps =>
    mrun fuel a s (fun s1 c1 => k s1 ((n, s.take (s.length - s1.length)) :: c1)) caps
  | _, .eol ml, s, k, caps =>
    match s with
    | [] => k s caps
    | c :: t =>
      if (ml && c.toNat == 10) || (!ml && c.toNat == 10 && t.isEmpty) then k s caps else none

/-- Fuel that always suffices for the patterns in this file: their derivation
depth is at most a small multiple of the input length plus the pattern size. -/
def bigFuel (s : List Char) : Nat := 16 * s.length + 2048

/-- Anchored match attempt at the start of `s` (Python `pattern.match`):
number of characters consumed plus the captures. -/
def matchAtL (r : RE) (s : List Char) : Option (Nat × Caps) :=
  match mrun (bigFuel s) r s (fun rest caps => some (rest, caps)) [] with
  | some (rest, caps) => some (s.length - rest.length, caps)
  | none => none

/-- Python `pattern.search`: leftmost match; start position, length, captures. -/
def searchGo (r : RE) : Nat → List Char → Option (Nat × Nat × Caps)
  | i, s =>
    match matchAtL r s with
    | some (len, caps) => some (i, len, caps)
    | none =>
      match s with
      | [] => none
      | _ :: t => searchGo r (i + 1) t

def searchL (r : RE) (s : List Char) : Option (Nat × Nat × Caps) := searchGo r 0 s

/-- The string a `findall` step emits: the whole match (`g = none`) or the
content of capture group `g`. -/
def femit (g : Option Nat) (s : List Char) (len : Nat) (caps : Caps) : List Char :=
  match g with
  | none => s.take len
  | some slot => ((caps.find? (fun p => p.1 == slot)).map Prod.snd).getD []

/-- Python `pattern.findall`: scan for non-overlapping leftmost matches,
emitting the whole match (`g = none`) or capture group `g`.  The fuel (one
more than the length of the scanned text at the outer call) is never
exhausted, since each step discards at least one character. -/
def findallGo (r : RE) (g : Option Nat) : Nat → List Char → List String
  | 0, _ => []
  | _ + 1, [] =>
    (match matchAtL r [] with
     | none => []
     | some (len, caps) => [String.mk (femit g [] len caps)])
  | fuel + 1, c :: rest =>
    match matchAtL r (c :: rest) with
    | none => findallGo r g fuel rest
    | some (len, caps) =>
      let item := femit g (c :: rest) len caps
      match len with
      | 0 => String.mk item :: findallGo r g fuel rest
      | len' + 1 => String.mk item :: findallGo r g fuel ((c :: rest).drop (len' + 1))

def findallL (r : RE) (g : Option Nat) (s : List Char) : List String :=
  findallGo r g (s.length + 1) s

/-- Regex helpers: greedy option, plus, bounded repetitions. -/
def rOpt (r : RE) : RE := .alt r .eps

def rPlus (r : RE) : RE := .cat r (.star r)

def repEx : Nat → RE → RE
  | 0, _ => .eps
  | n + 1, r => .cat r (repEx n r)

def repAtMost : Nat → RE → RE
  | 0, _ => .eps
  | n + 1, r => rOpt (.cat r (repAtMost n r))

def repRange (lo hi : Nat) (r : RE) : RE := .cat (repEx lo r) (repAtMost (hi - lo) r)

def repAtLeast (n : Nat) (r : RE) : RE := .cat (repEx n r) (.star r)

/-- `.` in the dynamic `parserouting` pattern: any character except newline. -/
def dotStar : RE := .star (.cls (fun n => n != 10))

/-! ### The compiled patterns of the source -/

/-- Source `email_regex`; the single capture group spans the whole match. -/
def emailRE : RE :=
  .cat (rPlus (.cls emailLocalN))
    (.cat (.lit ['@'])
      (.cat (rPlus (.cls alnumHyphN))
        (.star (.cat (.lit ['.']) (rPlus (.cls alnumHyphN))))))

def email_findall (s : String) : List String := findallL emailRE none s.data

/-- Capture group 1 of `dom_regex`: a label, then one or more dot-separated
labels of length at least two. -/
def domCore : RE :=
  .cat (rPlus (.cls alnumHyphN))
    (rPlus (.cat (.lit ['.']) (repAtLeast 2 (.cls alnumHyphN))))

/-- Source `dom_regex` (`re.MULTILINE`): delimited on the left by whitespace
or a delimiter character and on the right by `$` or a delimiter character. -/
def domRE : RE :=
  .cat (.cls domLeftN)
    (.cat (.grp 1 domCore) (.alt (.eol true) (.cls domRightN)))

def dom_findall (s : String) : List String := findallL domRE (some 1) s.data

/-- One octet of `ipv4_regex`: `25[0-5]|2[0-4][0-9]|[01]?[0-9][0-9]?`, with
the alternatives tried in that order. -/
def oct4 : RE :=
  .alt (.cat (.lit ['2', '5']) (.cls (fun n => 48 ≤ n && n ≤ 53)))
    (.alt (.cat (.lit ['2']) (.cat (.cls (fun n => 48 ≤ n && n ≤ 52)) (.cls isDigitN)))
      (.cat (rOpt (.cls (fun n => n == 48 || n == 49)))
        (.cat (.cls isDigitN) (rOpt (.cls isDigitN)))))

/-- Source `ipv4_regex`: four octets separated by dots (no anchors). -/
def ipv4RE : RE := .cat (repEx 3 (.cat oct4 (.lit ['.']))) oct4

def ipv4_findall (s : String) : List String := findallL ipv4RE none s.data

/-- Decimal octet of the embedded IPv4 tail in `ipv6_regex`:
`[0-9]|[1-9][0-9]|1[0-9]{2}|2[0-4][0-9]|25[0-5]` in that order. -/
def v6dec : RE :=
  .alt (.cls isDigitN)
    (.alt (.cat (.cls (fun n => 49 ≤ n && n ≤ 57)) (.cls isDigitN))
      (.alt (.cat (.lit ['1']) (repEx 2 (.cls isDigitN)))
        (.alt (.cat (.lit ['2']) (.cat (.cls (fun n => 48 ≤ n && n ≤ 52)) (.cls isDigitN)))
          (.cat (.lit ['2', '5']) (.cls (fun n => 48 ≤ n && n ≤ 53))))))

/-- Embedded dotted-quad tail of `ipv6_regex`. -/
def v4emb : RE := .cat (repEx 3 (.cat v6dec (.lit ['.']))) v6dec

/-- One to four hexadecimal digits. -/
def h16 : RE := repRange 1 4 (.cls isHexN)

/-- A hex group followed by a colon. -/
def hc : RE := .cat h16 (.lit [':'])

/-- Final 32 bits: two hex groups or an embedded IPv4 address. -/
def ls32 : RE := .alt (.cat h16 (.cat (.lit [':']) h16)) v4emb

/-- Source `ipv6_regex` (RFC 6874-style), with its nine ordered top-level
alternatives transcribed verbatim. -/
def ipv6RE : RE :=
  .alt (.cat (repEx 6 hc) ls32)
    (.alt (.cat (.lit [':', ':']) (.cat (repEx 5 hc) ls32))
      (.alt (.cat (rOpt h16) (.cat (.lit [':', ':']) (.cat (repEx 4 hc) ls32)))
        (.alt (.cat (rOpt (.cat h16 (.cat (.lit [':']) h16)))
              (.cat (.lit [':', ':']) (.cat (repEx 3 hc) ls32)))
          (.alt (.cat (rOpt (.cat (repAtMost 2 hc) h16))
                (.cat (.lit [':', ':']) (.cat (repEx 2 hc) ls32)))
            (.alt (.cat (rOpt (.cat (repAtMost 3 hc) h16))
                  (.cat (.lit [':', ':']) (.cat hc ls32)))
              (.alt (.cat (rOpt (.cat (repAtMost 4 hc) h16))
                    (.cat (.lit [':', ':']) ls32))
                (.alt (.cat (rOpt (.cat (repAtMost 5 hc) h16))
                      (.cat (.lit [':', ':']) h16))
                  (.cat (rOpt (.cat (repAtMost 6 hc) h16)) (.lit [':', ':'])))))))))

def ipv6_findall (s : String) : List String := findallL ipv6RE none s.data

/-- Any ASCII letter (the url pattern carries `re.I`). -/
def letterN (n : Nat) : Bool := isAlphaN n

/-- Source `url_regex_simple` (`re.I`): scheme of three or more letters, an
optional `s`, `://`, a host, dotted tails, and an optional path; the first
capture group spans the whole match. -/
def urlRE : RE :=
  .cat (repAtLeast 3 (.cls letterN))
    (.cat (rOpt (.cls (fun n => n == 115 || n == 83)))
      (.cat (.lit [':', '/', '/'])
        (.cat (rPlus (.cls urlHostN))
          (.cat (.star (.cat (.lit ['.']) (rPlus (.cls urlTailN))))
            (rOpt (.cat (.lit ['/']) (.star (.cls urlPathN))))))))

def url_findall (s : String) : List String := findallL urlRE none s.data

/-- Source `priv_ip_regex`: anchored private-address test (`pattern.match`,
so anchoring at the string start is built into its use). -/
def d13 : RE := .cat (.lit ['.']) (repRange 1 3 (.cls isDigitN))

def privRE : RE :=
  .alt (.cat (.lit ['1', '0']) (repEx 3 d13))
    (.alt (.cat (.lit ['1', '9', '2', '.', '1', '6', '8']) (repEx 2 d13))
      (.alt (.cat (.lit ['1', '7', '2', '.'])
            (.cat (.alt (.cat (.lit ['1']) (.cls (fun n => 54 ≤ n && n ≤ 57)))
                  (.alt (.cat (.lit ['2']) (.cls isDigitN))
                    (.cat (.lit ['3']) (.cls (fun n => n == 48 || n == 49)))))
              (repEx 2 d13)))
        (.alt (.cat (.lit ['1', '2', '7']) (repEx 3 d13))
          (.lit [':', ':', '1']))))

/-- Python `priv_ip_regex.match(s)` as a Boolean. -/
def privMatch (s : String) : Bool := (matchAtL privRE s.data).isSome

/-- Source `reg_date`: a semicolon followed by date-like characters, anchored
at the end of the string (`$` without `re.MULTILINE`). -/
def regdateRE : RE := .cat (.lit [';']) (.cat (rPlus (.cls dateClsN)) (.eol false))

def regdate_findall (s : String) : List String := findallL regdateRE none s.data

/-! ### robust_string2date -/

/-- Source `robust_string2date`, parameterised by the
`email.utils.parsedate_to_datetime` collaborator `pd`: dots become colons,
an unparseable date yields the epoch sentinel, and a parsed date without
timezone information is forced to UTC. -/
def robust_string2date (pd : PD) (line : String) : DT :=
  let msg_date := pyReplaceAllS line "." ":"
  match pd msg_date with
  | none => dateutil_epoch
  | some d =>
    match d.tz with
    | none => { d with tz := some 0 }
    | some _ => d

/-! ### give_dom_ip and shared helpers -/

/-- Model of Python `list(set(xs))`: duplicates removed (CPython's set
iteration order is unspecified; first occurrence order is the canonical
choice, and all properties proved below are order-insensitive). -/
def pyset (l : List String) : List String :=
  l.foldl (fun acc x => if x ∈ acc then acc else acc ++ [x]) []

/-- Source `give_dom_ip`: all domains, IPv4 and IPv6 addresses in a string
(domain search is run on the string with a space prepended). -/
def give_dom_ip (line : String) : List String :=
  pyset (dom_findall (" " ++ line) ++ ipv4_findall line ++ ipv6_findall line)

/-! ### parserouting -/

/-- The four marker keywords, in source order. -/
def borders : List String := ["from ", "by ", "with ", "for "]

/-- The sentinel `0xfffffff` used for an absent or out-of-order end marker. -/
def bigA : Nat := 0xfffffff

/-- The marker scan of `parserouting`: for every ordered pair of distinct
markers present in the line, an entry (marker, its position, weight). -/
def scanResult (np : String) : List (String × Nat × Nat) :=
  borders.foldl (fun acc word =>
    (borders.filter (fun w => w ≠ word)).foldl (fun acc2 endword =>
      if containsS np word then
        let loc := (strFindS np word).getD 0
        let endv :=
          match strFindS np endword with
          | none => bigA
          | some e => if e < loc then bigA else e
        acc2 ++ [(word, loc, endv + loc)]
      else acc2) acc) []

/-- For each marker, the entry of minimal weight (later entries win ties,
as in the source's `<=` update). -/
def toutOf (result : List (String × Nat × Nat)) : List (Nat × String) :=
  borders.foldl (fun acc word =>
    let best := result.foldl
      (fun (st : Nat × Option (String × Nat × Nat)) e =>
        if e.1 = word ∧ e.2.2 ≤ st.1 then (e.2.2, some e) else st)
      ((0xffffffff : Nat), none)
    match best.2 with
    | some c => acc ++ [(c.2.1, c.1)]
    | none => acc) []

/-- Stable insertion into a list sorted by position. -/
def insertPos (x : Nat × String) : List (Nat × String) → List (Nat × String)
  | [] => [x]
  | y :: ys => if x.1 < y.1 then x :: y :: ys else y :: insertPos x ys

/-- Python `sorted(tout, key=getkey)` (stable, by position). -/
def sortTout (l : List (Nat × String)) : List (Nat × String) :=
  l.foldl (fun acc x => insertPos x acc) []

/-- Capture slot used for each marker's named group. -/
def slotOf (w : String) : Nat :=
  if w = "from " then 1 else if w = "by " then 2 else if w = "with " then 3 else 4

/-- The dynamically built extraction pattern: each marker keyword followed by
a greedy dot-star group, in sorted order, then the escaped date literal
(`regprep` escapes every metacharacter the date can contain, so the date
clause acts as a literal). -/
def dynRE (tout : List (Nat × String)) (npdate : String) : RE :=
  tout.foldr
    (fun it rest => RE.cat (.lit it.2.data) (.cat (.grp (slotOf it.2) dotStar) rest))
    (if npdate = "" then RE.eps else RE.lit npdate.data)

def capLookup (caps : Caps) (slot : Nat) : Option (List Char) :=
  (caps.find? (fun p => p.1 == slot)).map Prod.snd

/-- Field extraction: `cleanline` applied to the named group, absent when the
group is missing from the pattern or the search failed (the source's
`try ... except: pass`). -/
def extractF (caps : Option Caps) (slot : Nat) : Option String :=
  match caps with
  | none => none
  | some cs => (capLookup cs slot).map (fun l => cleanlineS (String.mk l))

/-- Outcome of the line normalisation and field extraction steps of
`parserouting`, before the date and field fixups. -/
inductive Pre where
  | merged (src : String)
  | nothingP (src : String)
  | fields (src : String) (fromR byR withR forR : Option String) (npdate : String)
deriving DecidableEq, Repr

/-- Normalisation, anomaly short-circuits, marker scan and field extraction
of `parserouting` (source lines 511-588). -/
def preStage (line : String) : Pre :=
  let src := line
  let low := pyLowerS line
  let np := String.mk (stripCodeL 10 (collapseL (noparenthesisL (respaceL low.data))))
  let rawDates := regdate_findall np
  if containsS np " received: " then .merged src
  else
    let npdate :=
      match rawDates with
      | [] => ""
      | d :: _ => pyStripWsS (String.mk (lstripCodeL 59 d.data))
    let npl := String.mk (stripCodeL 32 (pyReplaceAllS np npdate "").data)
    let result := scanResult npl
    if result = [] then .nothingP src
    else
      let tout := sortTout (toutOf result)
      let caps := (searchL (dynRE tout npdate) low.data).map (fun r => r.2.2)
      .fields src (extractF caps 1) (extractF caps 2) (extractF caps 3) (extractF caps 4) npdate

/-- Python truthiness of a field value. -/
def fvTruthy : FieldVal → Bool
  | .s v => v ≠ ""
  | .l v => v ≠ []

/-- The e-mail harvesting step on the `for` field: replace the text by the
set of e-mail shaped tokens, dropping the field when there are none. -/
def emailSetF (f : String) : Option FieldVal :=
  let m := email_findall f
  if m = [] then none else some (.l (pyset m))

/-- The `for`-field fixup of `parserouting` (source lines 593-603), for a
truthy `for` text `f`: when `f` contains `from`, split on the literal
`' from '`, keep the head as the `for` text and append the remainder to the
`from` field — reading `out['from']`, which raises `KeyError` when no `from`
field was extracted. -/
def forProcess (fromR : Option String) (f : String) :
    Except Unit (Option String × Option FieldVal) :=
  if containsS f "from" then
    match fromR with
    | none => .error ()
    | some fr =>
      let temp := f.splitOn " from "
      .ok (some (fr ++ " " ++ String.intercalate " " (temp.drop 1)), emailSetF (temp.headD ""))
  else .ok (fromR, emailSetF f)

/-- The `from`/`by` fixup (source lines 606-615): a truthy text field is
replaced by its domain/IP token set and dropped when that set is empty; a
falsy (empty) text field is kept as the empty string. -/
def domipField : Option String → Option FieldVal
  | none => none
  | some s =>
    if s = "" then some (.s s)
    else
      let l := give_dom_ip s
      if l = [] then none else some (.l l)

/-- Assembly of the final hop record from the post-fixup fields. -/
def assembleHop (src : String) (fromR byR withR : Option String)
    (forV : Option FieldVal) (d : DT) : Hop :=
  { src := src, warning := none, dateF := some d,
    fromF := domipField fromR, byF := domipField byR,
    withF := withR.map FieldVal.s, forF := forV }

/-- Date assignment and field fixups of `parserouting` (source lines
589-617). -/
def fixStage (pd : PD) (src : String) (fromR byR withR forR : Option String)
    (npdate : String) : Except Unit Hop :=
  let d := robust_string2date pd npdate
  match forR with
  | none => .ok (assembleHop src fromR byR withR none d)
  | some f =>
    if f = "" then .ok (assembleHop src fromR byR withR (some (.s f)) d)
    else
      match forProcess fromR f with
      | .error e => .error e
      | .ok (fromR2, forV) => .ok (assembleHop src fromR2 byR withR forV d)

/-- Source `parserouting`, parameterised by the date collaborator: an
`Except.error` is a Python exception escaping to the caller. -/
def parserouting (pd : PD) (line : String) : Except Unit Hop :=
  match preStage line with
  | .merged src => .ok { src := src, warning := some ["Merged Received headers"] }
  | .nothingP src => .ok { src := src, warning := some ["Nothing Parsable"] }
  | .fields src fromR byR withR forR npdate => fixStage pd src fromR byR withR forR npdate

/-- The exact condition under which the `for`-field fixup reads the missing
`from` key: a truthy extracted `for` text containing `from` while no `from`
field was extracted. -/
def fixErrB (fromR forR : Option String) : Bool :=
  match forR with
  | none => false
  | some f => f ≠ "" && containsS f "from" && fromR.isNone

/-- Whether `parserouting` hits the `KeyError` in its `for`-field fixup. -/
def routingKeyError (line : String) : Bool :=
  match preStage line with
  | .fields _ fromR _ _ forR _ => fixErrB fromR forR
  | _ => false

/-! ### parse_email: aggregation over received header lines -/

/-- The contribution of one received header line to `received_ip`
(source lines 758-766): IPv6 matches then IPv4 matches, each skipped when the
private-range pattern matches it or when it is whitelisted (the IPv6 branch
compares the lowercased match against the whitelist, the IPv4 branch the
match as found), appended lowercased. -/
def receivedIpLine (whiteip : List String) (l : String) : List String :=
  let acc6 := (ipv6_findall l).foldl
    (fun acc ips =>
      if privMatch ips then acc
      else if pyLowerS ips ∈ whiteip then acc
      else acc ++ [pyLowerS ips]) []
  (ipv4_findall l).foldl
    (fun acc ips =>
      if privMatch ips then acc
      else if ips ∈ whiteip then acc
      else acc ++ [pyLowerS ips]) acc6

/-- Python iteration over a field value (`for itemfor in v` / `acc += v`):
a list yields its elements, a string its one-character substrings. -/
def fvIter : FieldVal → List String
  | .l v => v
  | .s v => v.data.map (fun c => String.mk [c])

/-- Python `x in v` on a field value: list membership, or substring test for
a string value. -/
def fvMem (c : String) : FieldVal → Bool
  | .l v => c ∈ v
  | .s v => containsS v c

/-- Whether the hop claims `c` in a truthy `for` field (the guard sequence of
source lines 785-786). -/
def inForOf (hop : Hop) (c : String) : Bool :=
  match hop.forF with
  | none => false
  | some v => fvTruthy v && fvMem c v

/-- The contribution of one received header line to `received_email`
(source lines 780-789): every e-mail shaped token of the line except those
listed in the same line's hop `for` field. -/
def receivedEmailLine (hop : Hop) (l : String) : List String :=
  let m := email_findall l
  if m = [] then []
  else
    m.foldl
      (fun acc c =>
        match hop.forF with
        | some v =>
          if fvTruthy v then (if fvMem c v then acc else acc ++ [c]) else acc ++ [c]
        | none => acc ++ [c]) []

/-- The `received_foremail` aggregation (source lines 796-802 with the
deduplication of line 816): for every item of a truthy `for` field that is
not whitelisted, the source appends the whole `for` value. -/
def received_foremail (whitefor : List String) (received : List Hop) : List String :=
  let base := received.foldl
    (fun acc hop =>
      match hop.forF with
      | none => acc
      | some v =>
        if fvTruthy v then
          (fvIter v).foldl
            (fun acc2 itemfor =>
              if itemfor ∈ whitefor then acc2 else acc2 ++ fvIter v) acc
        else acc) []
  pyset base

/-! ### parse_email: body indicator extraction -/

/-- Model of the collaborator chain
`urllib.parse.urlparse(u).geturl()`: on the token shapes produced by
`url_regex_simple` it lower-cases the scheme and reproduces the rest. -/
def urlparse_geturl (u : String) : String :=
  match strFindS u ":" with
  | none => u
  | some i => String.mk ((u.data.take i).map Char.toLower ++ u.data.drop i)

/-- Source `get_uri_ondata`: URL matches, with `hxxp` replaced by `http`,
re-serialised by the urlparse collaborator and truncated at the first noise
character. -/
def get_uri_ondata (body : String) : List String :=
  (url_findall body).foldl
    (fun acc m =>
      let f1 := pyReplaceAllS m "hxxp" "http"
      let f2 := urlparse_geturl f1
      let f3 := String.mk (f2.data.takeWhile (fun c => !urlNoiseN c.toNat))
      acc ++ [f3]) []

/-- The four indicator accumulators of the body scan. -/
structure BodyObs where
  urls : List String
  emails : List String
  doms : List String
  ips : List String
deriving DecidableEq, Repr

/-- The exhaustive body scan (source lines 847-860, taken when the body is
shorter than 4096 characters). -/
def exhaustiveScan (whiteip : List String) (body : String) : BodyObs :=
  { urls := get_uri_ondata body
  , emails := (email_findall body).foldl (fun acc m => acc ++ [pyLowerS m]) []
  , doms := (dom_findall body).foldl (fun acc m => acc ++ [pyLowerS m]) []
  , ips :=
      let i4 := (ipv4_findall body).foldl
        (fun acc m =>
          if privMatch m then acc
          else if m ∈ whiteip then acc
          else acc ++ [m]) []
      (ipv6_findall body).foldl
        (fun acc m =>
          if privMatch m then acc
          else if pyLowerS m ∈ whiteip then acc
          else acc ++ [pyLowerS m]) i4 }

/-- The windowed body scan (source lines 862-887, taken when the body has at
least 4096 characters): fixed windows around each occurrence of the anchors
`://`, `@`, `.` and `:`. -/
def windowedScan (whiteip : List String) (body : String) : BodyObs :=
  let s := body.data
  let urls := (allOccL [':', '/', '/'] s).foldl
    (fun acc p => get_uri_ondata (pySliceS body ((p : Int) - 16) ((p : Int) + 4096)) ++ acc) []
  let emails := (allOccL ['@'] s).foldl
    (fun acc p =>
      (email_findall (pySliceS body ((p : Int) - 64) ((p : Int) + 255))).foldl
        (fun a m => a ++ [pyLowerS m]) acc) []
  let domsIps := (allOccL ['.'] s).foldl
    (fun (di : List String × List String) p =>
      let doms := (dom_findall (pySliceS body ((p : Int) - 253) ((p : Int) + 1004))).foldl
        (fun a m => a ++ [pyLowerS m]) di.1
      let ips := (ipv4_findall (pySliceS body ((p : Int) - 11) ((p : Int) + 3))).foldl
        (fun a m =>
          if privMatch m then a
          else if m ∈ whiteip then a
          else a ++ [m]) di.2
      (doms, ips)) ([], [])
  let ips6 := (allOccL [':'] s).foldl
    (fun acc p =>
      (ipv6_findall (pySliceS body ((p : Int) - 4) ((p : Int) + 35))).foldl
        (fun a m =>
          if privMatch m then a
          else if pyLowerS m ∈ whiteip then a
          else a ++ [pyLowerS m]) acc) domsIps.2
  { urls := urls, emails := emails, doms := domsIps.1, ips := ips6 }

/-- The body indicator extraction with its 4096-character threshold
(source line 847). -/
def bodyIndicators (whiteip : List String) (body : String) : BodyObs :=
  if body.length < 4096 then exhaustiveScan whiteip body else windowedScan whiteip body

/-! ### MIME tree walk -/

/-- One leaf part of the message tree, exposing what the email collaborator
exposes: header pairs in order (`items()`), declared top-level content type,
declared filename (`none` models `get_filename()` returning `None`), declared
charset, and the transfer-decoded payload bytes (`get_payload(decode=True)`). -/
structure LeafData where
  headers : List (String × String)
  maintype : String
  filename : Option String
  charset : Option String
  payload : List UInt8
deriving DecidableEq, Repr

mutual

/-- A message tree: a multipart container with its headers and children, or a
leaf part. -/
inductive Msg where
  | leaf (d : LeafData)
  | multi (headers : List (String × String)) (parts : MsgL)

/-- The children of a multipart container, as an inline list. -/
inductive MsgL where
  | mnil
  | mcons (m : Msg) (rest : MsgL)

end

/-- Case-insensitive header presence, Python `name in msg`. -/
def hdrContains (hs : List (String × String)) (name : String) : Bool :=
  hs.any (fun kv => pyLowerS kv.1 == name)

/-- Case-insensitive first header value, Python `msg.get(name)`. -/
def hdrGet (hs : List (String × String)) (name : String) : Option String :=
  (hs.find? (fun kv => pyLowerS kv.1 == name)).map Prod.snd

/-- Model of the codec collaborator `bytes.decode(charset, 'ignore')`:
bytes to text, never raising (ASCII fragment; nothing proved below inspects
decoded body text). -/
def pydecode (charset : String) (b : List UInt8) : String :=
  let _ := charset
  String.mk ((b.filter (fun x => x.toNat < 128)).map (fun x => Char.ofNat x.toNat))

/-- Modelled from the spec: `eml_parser.decode.decode_field`, the RFC 2047
MIME encoded-word decoder collaborator (module `eml_parser/decode.py` is not
part of the analysed source); plain header text without encoded words decodes
to itself. -/
def decode_field (s : String) : String := s

/-- Model of the collaborator `base64.b64encode` output: kept as the raw
bytes it encodes (the encoding is injective and nothing proved below
inspects it). -/
def b64encode (b : List UInt8) : List UInt8 := b

/-- A body-part payload value: raw bytes (no charset declared) or decoded
text. -/
inductive BodyContent where
  | bytes (b : List UInt8)
  | strv (s : String)
deriving DecidableEq, Repr

mutual

/-- Source `get_raw_body_text`: recursively collect
`(encoding, raw_body, headers)` for every leaf that counts as body text
(no content-disposition and top-level type `text`, or a `.htm`/`.html`
filename). -/
def get_raw_body_text (msg : Msg) : List (String × BodyContent × List (String × String)) :=
  match msg with
  | .multi _ parts => rawBodyList parts
  | .leaf d =>
    let filename := pyLowerS (d.filename.getD "")
    if (!hdrContains d.headers "content-disposition" && d.maintype == "text")
        || (endsWithS filename ".html" || endsWithS filename ".htm") then
      let encoding := pyLowerS ((hdrGet d.headers "content-transfer-encoding").getD "")
      let raw :=
        match d.charset with
        | none => BodyContent.bytes d.payload
        | some cs => BodyContent.strv (pydecode cs d.payload)
      [(encoding, raw, d.headers)]
    else []

/-- Recursion of `get_raw_body_text` over the children of a multipart. -/
def rawBodyList (ps : MsgL) : List (String × BodyContent × List (String × String)) :=
  match ps with
  | .mnil => []
  | .mcons p rest => get_raw_body_text p ++ rawBodyList rest

end

/-- Source `get_file_extension`: the lower-cased text after the last dot. -/
def get_file_extension (filename : String) : String :=
  let rev := filename.data.reverse
  if rev.any (fun c => c = '.') then
    pyLowerS (String.mk (rev.takeWhile (fun c => c ≠ '.')).reverse)
  else ""

/-- Stand-in for a hash collaborator's hex digest: the algorithm name paired
with the exact bytes it was computed over (injective model of `hashlib`). -/
structure Digest where
  algo : String
  data : List UInt8
deriving DecidableEq, Repr

def hash_hexdigest (algo : String) (data : List UInt8) : Digest := ⟨algo, data⟩

/-- Source `get_file_hash`: one digest per algorithm in the fixed order
`md5`, `sha1`, `sha256`, `sha512`, each over the given bytes. -/
def get_file_hash (data : List UInt8) : List (String × Digest) :=
  ["md5", "sha1", "sha256", "sha512"].foldl
    (fun acc k => acc ++ [(k, hash_hexdigest k data)]) []

/-- Python `'part-{0:03d}'.format(n)`. -/
def pad3 (n : Nat) : String :=
  let s := toString n
  if s.length ≥ 3 then s else String.mk (List.replicate (3 - s.length) '0') ++ s

/-- The per-part header multimap built by `traverse_multipart`
(lower-cased keys, values appended in order, insertion-ordered keys). -/
def hdrMultimap (hs : List (String × String)) : List (String × List String) :=
  hs.foldl
    (fun ch kv =>
      let k := pyLowerS kv.1
      if ch.any (fun e => e.1 == k) then
        ch.map (fun e => if e.1 == k then (e.1, e.2 ++ [kv.2]) else e)
      else ch ++ [(k, [kv.2])]) []

/-- One attachment record of `traverse_multipart` (the `mime_type` fields are
absent because the optional `magic` collaborator is not importable in the
analysed configuration; the dict key is a fresh uuid, so the dict is modelled
as the insertion-ordered list of records). -/
structure AttachRec where
  filename : String
  size : Nat
  extensionF : Option String := none
  hash : List (String × Digest)
  raw : Option (List UInt8) := none
  content_header : List (String × List String)
deriving DecidableEq, Repr

mutual

/-- Source `traverse_multipart`.  Note the faithful counter behaviour: every
child of a multipart receives the same `counter` value
(`attachments.update(traverse_multipart(part, counter, ...))` passes it by
value), and the `counter += 1` at the end of the source's leaf branch is
local to that call and therefore has no effect. -/
def traverse_multipart (msg : Msg) (counter : Nat) (include_attachment_data : Bool) :
    List AttachRec :=
  match msg with
  | .multi _ parts => traverseList parts counter include_attachment_data
  | .leaf d =>
    if hdrContains d.headers "content-disposition" || !(d.maintype == "text") then
      let data := d.payload
      let file_size := data.length
      let filename0 := d.filename.getD ""
      let filename := if filename0 = "" then "part-" ++ pad3 counter else decode_field filename0
      let extension := get_file_extension filename
      [{ filename := filename
       , size := file_size
       , extensionF := if extension ≠ "" then some extension else none
       , hash := get_file_hash data
       , raw := if include_attachment_data then some (b64encode data) else none
       , content_header := hdrMultimap d.headers }]
    else []

/-- Recursion of `traverse_multipart` over the children of a multipart. -/
def traverseList (ps : MsgL) (counter : Nat) (include_attachment_data : Bool) :
    List AttachRec :=
  match ps with
  | .mnil => []
  | .mcons p rest =>
    traverse_multipart p counter include_attachment_data ++
      traverseList rest counter include_attachment_data

end

/-! ### Concrete inputs used by the claim theorems -/

/-- The hop record produced for the merged-headers anomaly line
`"x received: y"`. -/
def hopMergedEx : Hop := { src := "x received: y", warning := some ["Merged Received headers"] }

/-- A hop whose `for` set mixes a whitelisted and a non-whitelisted
address. -/
def hopLeak : Hop :=
  { src := "for white@x.com other@y.com"
  , forF := some (.l ["white@x.com", "other@y.com"]) }

/-- An attachment leaf with no declared filename. -/
def attNameless1 : Msg :=
  .leaf { headers := [("Content-Disposition", "attachment")], maintype := "application"
        , filename := none, charset := none, payload := [0] }

/-- A second attachment leaf with no declared filename. -/
def attNameless2 : Msg :=
  .leaf { headers := [("Content-Disposition", "attachment")], maintype := "application"
        , filename := none, charset := none, payload := [1] }

/-- A multipart message with two nameless attachments. -/
def msgTwoNameless : Msg :=
  .multi [("Content-Type", "multipart/mixed")] (.mcons attNameless1 (.mcons attNameless2 .mnil))

/-- A plain-text body leaf without content disposition. -/
def textPart : Msg :=
  .leaf { headers := [("Content-Type", "text/plain")], maintype := "text"
        , filename := none, charset := none, payload := [104, 105] }

/-- The byte payload of the PDF attachment example. -/
def pdfBytes : List UInt8 := [37, 80, 68, 70]

/-- An `application/pdf` leaf with declared filename `report.pdf`. -/
def pdfPart : Msg :=
  .leaf { headers := [("Content-Type", "application/pdf")
                     , ("Content-Disposition", "attachment; filename=report.pdf")]
        , maintype := "application", filename := some "report.pdf", charset := none
        , payload := pdfBytes }

/-- The two-part multipart message of the MIME walk example. -/
def msgTwoPart : Msg :=
  .multi [("Content-Type", "multipart/mixed")] (.mcons textPart (.mcons pdfPart .mnil))

/-- A body text shorter than the 4096-character threshold whose only e-mail
token has a 65-character local part. -/
def bodyC5 : String := String.mk (List.replicate 65 'a') ++ "@b.com"

/-- The e-mail token contained in `bodyC5`. -/
def mailC5 : String := String.mk (List.replicate 65 'a') ++ "@b.com"

/-! ### Helper lemmas -/

/-- Membership in a guarded accumulating fold. -/
theorem mem_foldl_guard {α β : Type} (l : List α) (p : α → Bool) (f : α → β)
    (acc : List β) (x : β) :
    x ∈ l.foldl (fun a i => if p i then a else a ++ [f i]) acc ↔
      x ∈ acc ∨ ∃ i, i ∈ l ∧ p i = false ∧ x = f i := by
  induction l generalizing acc with
  | nil => simp
  | cons hd tl ih =>
    simp only [List.foldl_cons]
    by_cases hp : p hd
    · rw [if_pos hp, ih]
      constructor
      · rintro (hx | ⟨i, hi, hpi, hxi⟩)
        · exact Or.inl hx
        · exact Or.inr ⟨i, List.mem_cons_of_mem _ hi, hpi, hxi⟩
      · rintro (hx | ⟨i, hi, hpi, hxi⟩)
        · exact Or.inl hx
        · rcases List.mem_cons.mp hi with h1 | h1
          · subst h1; simp [hp] at hpi
          · exact Or.inr ⟨i, h1, hpi, hxi⟩
    · rw [if_neg hp, ih]
      constructor
      · rintro (hx | ⟨i, hi, hpi, hxi⟩)
        · rcases List.mem_append.mp hx with h1 | h1
          · exact Or.inl h1
          · exact Or.inr ⟨hd, List.mem_cons_self _ _, Bool.eq_false_iff.mpr hp,
              (List.mem_singleton.mp h1)⟩
        · exact Or.inr ⟨i, List.mem_cons_of_mem _ hi, hpi, hxi⟩
      · rintro (hx | ⟨i, hi, hpi, hxi⟩)
        · exact Or.inl (List.mem_append.mpr (Or.inl hx))
        · rcases List.mem_cons.mp hi with h1 | h1
          · subst h1
            exact Or.inl (List.mem_append.mpr (Or.inr (List.mem_singleton.mpr hxi)))
          · exact Or.inr ⟨i, h1, hpi, hxi⟩

/-- Membership in a doubly guarded accumulating fold (Boolean guard first,
then a decidable propositional guard, as in the whitelist checks). -/
theorem mem_foldl_guard2 {α β : Type} (l : List α) (p : α → Bool) (q : α → Prop)
    [DecidablePred q] (f : α → β) (acc : List β) (x : β) :
    x ∈ l.foldl (fun a i => if p i then a else if q i then a else a ++ [f i]) acc ↔
      x ∈ acc ∨ ∃ i, i ∈ l ∧ p i = false ∧ ¬q i ∧ x = f i := by
  induction l generalizing acc with
  | nil => simp
  | cons hd tl ih =>
    simp only [List.foldl_cons]
    by_cases hp : p hd
    · rw [if_pos hp, ih]
      constructor
      · rintro (hx | ⟨i, hi, hpi, hqi, hxi⟩)
        · exact Or.inl hx
        · exact Or.inr ⟨i, List.mem_cons_of_mem _ hi, hpi, hqi, hxi⟩
      · rintro (hx | ⟨i, hi, hpi, hqi, hxi⟩)
        · exact Or.inl hx
        · rcases List.mem_cons.mp hi with h1 | h1
          · subst h1; simp [hp] at hpi
          · exact Or.inr ⟨i, h1, hpi, hqi, hxi⟩
    · rw [if_neg hp]
      by_cases hq : q hd
      · rw [if_pos hq, ih]
        constructor
        · rintro (hx | ⟨i, hi, hpi, hqi, hxi⟩)
          · exact Or.inl hx
          · exact Or.inr ⟨i, List.mem_cons_of_mem _ hi, hpi, hqi, hxi⟩
        · rintro (hx | ⟨i, hi, hpi, hqi, hxi⟩)
          · exact Or.inl hx
          · rcases List.mem_cons.mp hi with h1 | h1
            · subst h1; exact absurd hq hqi
            · exact Or.inr ⟨i, h1, hpi, hqi, hxi⟩
      · rw [if_neg hq, ih]
        constructor
        · rintro (hx | ⟨i, hi, hpi, hqi, hxi⟩)
          · rcases List.mem_append.mp hx with h1 | h1
            · exact Or.inl h1
            · exact Or.inr ⟨hd, List.mem_cons_self _ _, Bool.eq_false_iff.mpr hp, hq,
                List.mem_singleton.mp h1⟩
          · exact Or.inr ⟨i, List.mem_cons_of_mem _ hi, hpi, hqi, hxi⟩
        · rintro (hx | ⟨i, hi, hpi, hqi, hxi⟩)
          · exact Or.inl (List.mem_append.mpr (Or.inl hx))
          · rcases List.mem_cons.mp hi with h1 | h1
            · subst h1
              exact Or.inl (List.mem_append.mpr (Or.inr (List.mem_singleton.mpr hxi)))
            · exact Or.inr ⟨i, h1, hpi, hqi, hxi⟩

/-- Membership in an unguarded accumulating fold. -/
theorem mem_foldl_append {α : Type} (l : List α) (acc : List α) (x : α) :
    x ∈ l.foldl (fun a i => a ++ [i]) acc ↔ x ∈ acc ∨ x ∈ l := by
  induction l generalizing acc with
  | nil => simp
  | cons hd tl ih =>
    simp only [List.foldl_cons, ih, List.mem_append, List.mem_singleton, List.mem_cons]
    tauto

/-- The fixup stage fails exactly under the `KeyError` condition. -/
theorem fixStage_error_iff (pd : PD) (src : String) (fromR byR withR forR : Option String)
    (npdate : String) :
    (fixStage pd src fromR byR withR forR npdate = .error ()) ↔ fixErrB fromR forR = true := by
  cases forR with
  | none => simp [fixStage, fixErrB]
  | some f =>
    by_cases hf : f = ""
    · simp [fixStage, fixErrB, hf]
    · by_cases hc : containsS f "from"
      · cases fromR with
        | none => simp [fixStage, fixErrB, forProcess, hf, hc]
        | some fr => simp [fixStage, fixErrB, forProcess, hf, hc]
      · simp [fixStage, fixErrB, forProcess, hf, hc]

/-- Every hop the fixup stage returns carries the parsed date and no
warning. -/
theorem fixStage_ok_fields (pd : PD) (src : String) (fromR byR withR forR : Option String)
    (npdate : String) (hop : Hop)
    (h : fixStage pd src fromR byR withR forR npdate = .ok hop) :
    hop.dateF = some (robust_string2date pd npdate) ∧ hop.warning = none := by
  cases forR with
  | none =>
    simp only [fixStage] at h
    cases h
    exact ⟨rfl, rfl⟩
  | some f =>
    by_cases hf : f = ""
    · simp only [fixStage, if_pos hf] at h
      cases h
      exact ⟨rfl, rfl⟩
    · simp only [fixStage, if_neg hf] at h
      cases hfp : forProcess fromR f with
      | error e => rw [hfp] at h; cases h
      | ok pr =>
        rw [hfp] at h
        cases h
        exact ⟨rfl, rfl⟩

/-! ### Claim theorems -/

/-- C1 (counterexample): `parserouting` is not total — on the line
`"for a@b.com fromx"` the extracted `for` text contains `from` while no
`from` field was extracted, so the fixup's read of `out['from']` raises
`KeyError` to the caller. -/
theorem parserouting_keyerror_cex :
    parserouting pdNone "for a@b.com fromx" = .error () := rfl

/-- C1 (amended): `parserouting` returns a hop record for every input line
except exactly when the `for`-field fixup fires without an extracted `from`
field — it raises (`Except.error`) if and only if the extracted `for` text
is non-empty, contains `from`, and the `from` field is absent. -/
theorem parserouting_error_iff_keyerror (pd : PD) (line : String) :
    (parserouting pd line = .error ()) ↔ routingKeyError line = true := by
  unfold parserouting routingKeyError
  cases preStage line with
  | merged src => simp
  | nothingP src => simp
  | fields src fromR byR withR forR npdate =>
    exact fixStage_error_iff pd src fromR byR withR forR npdate

/-- C2 (counterexample): the merged-headers anomaly record carries no `date`
field at all — the short-circuit returns `{src, warning}` before the date is
assigned, contradicting the claim that `date` is present on anomaly
records. -/
theorem merged_record_no_date_cex :
    parserouting pdNone "x received: y" = .ok hopMergedEx ∧ hopMergedEx.dateF = none :=
  ⟨rfl, rfl⟩

/-- C2 (amended): on every record `parserouting` returns, the `date` field is
present exactly when the record is not one of the two anomaly records (which
carry only `src` and a warning); on the normal path `date` is always set,
with the epoch sentinel standing in for an unparseable date clause. -/
theorem parserouting_date_iff_no_warning (pd : PD) (line : String) (hop : Hop)
    (h : parserouting pd line = .ok hop) :
    hop.dateF.isSome ↔ hop.warning = none := by
  unfold parserouting at h
  cases hpre : preStage line with
  | merged src =>
    rw [hpre] at h
    cases h
    simp
  | nothingP src =>
    rw [hpre] at h
    cases h
    simp
  | fields src fromR byR withR forR npdate =>
    rw [hpre] at h
    obtain ⟨hd, hw⟩ := fixStage_ok_fields pd src fromR byR withR forR npdate hop h
    rw [hd, hw]
    simp

/-- C2 (witness): the amended statement instantiated at the merged-headers
line. -/
theorem parserouting_date_iff_no_warning_witness :
    parserouting pdNone "x received: y" = .ok hopMergedEx ∧
      (hopMergedEx.dateF.isSome ↔ hopMergedEx.warning = none) :=
  ⟨rfl, parserouting_date_iff_no_warning pdNone "x received: y" hopMergedEx rfl⟩

/-- C3 (code bug): a whitelisted `for` address does appear in
`received_foremail` whenever its hop also claims a non-whitelisted address,
because the loop appends the hop's whole `for` list instead of the single
non-whitelisted item. -/
theorem foremail_keeps_whitelisted_cex :
    "white@x.com" ∈ ["white@x.com"] ∧
      "white@x.com" ∈ received_foremail ["white@x.com"] [hopLeak] := by
  exact ⟨by decide, by decide⟩

/-- C4 (code bug): the filename counter is not threaded through the
recursion — each child of a multipart receives the same counter and the
increment is local — so two distinct nameless attachments both receive the
synthetic filename `part-000` instead of `part-000` and `part-001`. -/
theorem counter_not_threaded_cex :
    (traverse_multipart msgTwoNameless 0 false).map (fun a => a.filename) =
      ["part-000", "part-000"] := rfl

/-- C5 (counterexample): below the 4096-character threshold the windowed and
exhaustive code paths are not equivalent — on `bodyC5` (71 characters) the
exhaustive scan reports the full 65-character-local e-mail token while the
`@`-anchored window truncates it, so the result sets differ. -/
theorem windowed_vs_exhaustive_cex :
    bodyC5.length < 4096 ∧
      mailC5 ∈ (exhaustiveScan [] bodyC5).emails ∧
      mailC5 ∉ (windowedScan [] bodyC5).emails ∧
      windowedScan [] bodyC5 ≠ exhaustiveScan [] bodyC5 := by
  refine ⟨by decide, by decide, by decide, by decide⟩

/-- C5 (amended): for every body strictly shorter than 4096 characters the
extraction takes the exhaustive whole-text path (so its results are the
exhaustive ones by construction); the windowed path does not in general
coincide with it on under-threshold texts. -/
theorem bodyIndicators_under_threshold (whiteip : List String) (body : String)
    (h : body.length < 4096) :
    bodyIndicators whiteip body = exhaustiveScan whiteip body := by
  simp [bodyIndicators, h]

/-- C5 (witness): the amended statement instantiated at a one-character
body. -/
theorem bodyIndicators_under_threshold_witness :
    ("x" : String).length < 4096 ∧ bodyIndicators [] "x" = exhaustiveScan [] "x" :=
  ⟨by decide, bodyIndicators_under_threshold [] "x" (by decide)⟩

/-- C6: `robust_string2date` never fails and always returns a
timezone-carrying timestamp: when the date collaborator cannot interpret the
(dot-fixed) string it returns the epoch sentinel, and when the parsed date
has no timezone it is forced to UTC. -/
theorem robust_string2date_contract (pd : PD) (line : String) :
    (pd (pyReplaceAllS line "." ":") = none → robust_string2date pd line = dateutil_epoch) ∧
      (robust_string2date pd line).tz.isSome ∧
      (∀ d, pd (pyReplaceAllS line "." ":") = some d → d.tz = none →
        robust_string2date pd line = { d with tz := some 0 }) := by
  refine ⟨fun hp => ?_, ?_, fun d hd htz => ?_⟩
  · simp [robust_string2date, hp]
  · cases hp : pd (pyReplaceAllS line "." ":") with
    | none => simp [robust_string2date, hp, dateutil_epoch]
    | some d =>
      cases hd : d.tz with
      | none => simp [robust_string2date, hp, hd]
      | some z => simp [robust_string2date, hp, hd]
  · simp [robust_string2date, hd, htz]

/-- C6 (witness): the contract instantiated at an unparseable date string. -/
theorem robust_string2date_contract_witness :
    robust_string2date pdNone "garbage" = dateutil_epoch ∧
      (robust_string2date pdNone "garbage").tz.isSome :=
  ⟨(robust_string2date_contract pdNone "garbage").1 rfl,
   (robust_string2date_contract pdNone "garbage").2.1⟩

/-- C7: membership in a line's `received_ip` contribution — an address is
added exactly when it is the (lowercased) form of an IPv6 or IPv4 match of
the line that does not match the private-range pattern and is not
whitelisted; in particular a private match is never added regardless of the
whitelist, and a non-private match is added iff it is not whitelisted. -/
theorem received_ip_members (wl : List String) (l : String) (x : String) :
    x ∈ receivedIpLine wl l ↔
      ((∃ ips, ips ∈ ipv6_findall l ∧ privMatch ips = false ∧ pyLowerS ips ∉ wl ∧
          x = pyLowerS ips) ∨
        (∃ ips, ips ∈ ipv4_findall l ∧ privMatch ips = false ∧ ips ∉ wl ∧
          x = pyLowerS ips)) := by
  unfold receivedIpLine
  rw [mem_foldl_guard2 (ipv4_findall l) privMatch (fun ips => ips ∈ wl) pyLowerS]
  rw [mem_foldl_guard2 (ipv6_findall l) privMatch (fun ips => pyLowerS ips ∈ wl) pyLowerS]
  simp only [List.not_mem_nil, false_or]

/-- C8 (counterexample): scanning the token `256.1.1.1` does produce an IPv4
indicator — the unanchored pattern matches the suffix `56.1.1.1` — so "no
IPv4 indicator may be produced for that token" fails on the code. -/
theorem ipv4_256_produces_indicator_cex :
    ipv4_findall "256.1.1.1" ≠ [] := by decide

/-- C8 (amended): octet validation rejects the full token — `256.1.1.1`
itself is never among the matches — but because the pattern is unanchored
the scan of that token yields exactly the truncated indicator `56.1.1.1`. -/
theorem ipv4_256_truncated :
    ipv4_findall "256.1.1.1" = ["56.1.1.1"] ∧ "256.1.1.1" ∉ ipv4_findall "256.1.1.1" := by
  exact ⟨by decide, by decide⟩

/-- C9: on the two-part multipart message (one `text/plain` body part without
content disposition, one `application/pdf` attachment named `report.pdf`)
the MIME walk yields exactly one body part and one attachment, the
attachment's extension is `pdf`, and its hash set holds all four algorithms,
each computed over the decoded byte payload. -/
theorem mime_walk_two_part :
    (get_raw_body_text msgTwoPart).length = 1 ∧
      (traverse_multipart msgTwoPart 0 false).length = 1 ∧
      (traverse_multipart msgTwoPart 0 false).map (fun a => a.extensionF) = [some "pdf"] ∧
      (traverse_multipart msgTwoPart 0 false).map (fun a => a.hash) =
        [[("md5", ⟨"md5", pdfBytes⟩), ("sha1", ⟨"sha1", pdfBytes⟩),
          ("sha256", ⟨"sha256", pdfBytes⟩), ("sha512", ⟨"sha512", pdfBytes⟩)]] := by
  refine ⟨rfl, rfl, rfl, rfl⟩

/-- C10: an e-mail token of a received line is added to the line's
`received_email` contribution exactly when the line's hop does not claim it
in a truthy `for` field. -/
theorem received_email_excludes_for (hop : Hop) (l : String) (c : String) :
    c ∈ receivedEmailLine hop l ↔ (c ∈ email_findall l ∧ inForOf hop c = false) := by
  cases hv : hop.forF with
  | none =>
    by_cases hm : email_findall l = []
    · simp [receivedEmailLine, hm, inForOf, hv]
    · simp only [receivedEmailLine, hv, if_neg hm]
      rw [mem_foldl_append]
      simp [inForOf, hv]
  | some v =>
    by_cases hm : email_findall l = []
    · simp [receivedEmailLine, hm, inForOf, hv]
    · by_cases ht : fvTruthy v
      · simp only [receivedEmailLine, hv, if_neg hm, ht, if_true]
        rw [mem_foldl_guard (email_findall l) (fun i => fvMem i v) (fun i => i)]
        simp [inForOf, hv, ht]
      · simp only [receivedEmailLine, hv, if_neg hm, ht, Bool.false_eq_true, if_false]
        rw [mem_foldl_append]
        simp [inForOf, hv, ht]

end EmlSpec
